import Mathlib

/-!
Shallow embedding of the IMEI extraction pipeline of `imei_extractor_api.py`:
the Luhn checksum validator, the regex-based candidate scanner, the PDF/image
extraction strategy selector and the pipeline orchestrator.

Strings are modelled as `List Char` over the ASCII alphabet the program
processes.  The external services (pdfplumber text layer, pdf2image plus
pytesseract OCR) are modelled by their observable results, with `none`
standing for a call that raised an exception.
-/

set_option autoImplicit false

/-- Python `str.isdigit` on the decimal alphabet: non-empty and all decimal
digits. -/
def str_isdigit (s : List Char) : Bool := !s.isEmpty && s.all Char.isDigit

/-- Numeric value of a decimal digit character, Python `int(ch)`. -/
def digitVal (c : Char) : Nat := c.toNat - '0'.toNat

/-- Luhn doubling step of the source: double the digit and subtract 9 when the
result exceeds 9. -/
def double9 (d : Nat) : Nat := if d * 2 > 9 then d * 2 - 9 else d * 2

/-- Checksum accumulation loop of `luhn_checksum_is_valid`: walks the digit
list from the left carrying the running index (Python `enumerate`), doubling
exactly at the indices whose parity equals `parity`. -/
def luhnSumAux (parity : Nat) (idx : Nat) : List Nat → Nat
  | [] => 0
  | d :: rest => (if idx % 2 = parity then double9 d else d) + luhnSumAux parity (idx + 1) rest

/-- Embedding of `luhn_checksum_is_valid`: reject non-digit input, then check
that the parity-indexed transformed digit sum is divisible by 10, with
`parity = len(digits) % 2`. -/
def luhn_checksum_is_valid (number_str : List Char) : Bool :=
  if !str_isdigit number_str then false
  else
    luhnSumAux ((number_str.map digitVal).length % 2) 0 (number_str.map digitVal) % 10 == 0

/-- Word character of the regex `\b` assertion: `[A-Za-z0-9_]`. -/
def isWordChar (c : Char) : Bool := c.isAlphanum || c == '_'

/-- The `\b` assertion before the 15 digits, given the character preceding the
current position (`none` at the start of the text).  Since the first matched
character is a digit (a word character), the boundary holds exactly when the
position is at the start or after a non-word character. -/
def boundaryBeforeOk (prev : Option Char) : Bool :=
  match prev with
  | none => true
  | some c => !isWordChar c

/-- The `\b` assertion after the 15 digits, given the remaining text.  Since
the last matched character is a digit, the boundary holds exactly at the end
of the text or before a non-word character. -/
def boundaryAfterOk (rest : List Char) : Bool :=
  match rest with
  | [] => true
  | c :: _ => !isWordChar c

/-- Whether `IMEI_REGEX`, the pattern of 15 digits between word boundaries,
matches at the current position of the text. -/
def imeiMatchAt (prev : Option Char) (s : List Char) : Bool :=
  boundaryBeforeOk prev && (s.take 15).length == 15 && (s.take 15).all Char.isDigit &&
    boundaryAfterOk (s.drop 15)

/-- Driver of `IMEI_REGEX.findall`: left-to-right scan producing the
non-overlapping matches in text order.  `prev` is the character before the
current position; after a match, `skip` consumes the remaining 14 matched
digits so that scanning resumes right after the match. -/
def scanIMEIs (skip : Nat) (prev : Option Char) : List Char → List (List Char)
  | [] => []
  | c :: cs =>
    match skip with
    | n + 1 => scanIMEIs n (some c) cs
    | 0 =>
      if imeiMatchAt prev (c :: cs) then
        (c :: cs).take 15 :: scanIMEIs 14 (some c) cs
      else
        scanIMEIs 0 (some c) cs

/-- Embedding of `IMEI_REGEX.findall(text)`. -/
def findallIMEIs (text : List Char) : List (List Char) := scanIMEIs 0 none text

/-- The candidate loop of `extract_imeis_from_text`: skip candidates already
accepted (the `seen` set), keep those passing the Luhn check, in encounter
order. -/
def filterValid : List (List Char) → List (List Char) → List (List Char)
  | [], _ => []
  | c :: cs, seen =>
    if c ∈ seen then filterValid cs seen
    else if luhn_checksum_is_valid c then c :: filterValid cs (c :: seen)
    else filterValid cs seen

/-- Embedding of `extract_imeis_from_text`. -/
def extract_imeis_from_text (text : List Char) : List (List Char) :=
  if text.isEmpty then [] else filterValid (findallIMEIs text) []

/-- Python whitespace set of `str.strip`. -/
def isPySpace (c : Char) : Bool :=
  c == ' ' || c == '\t' || c == '\n' || c == '\r' || c == '\x0b' || c == '\x0c'

/-- Python `str.strip()`: drop leading and trailing whitespace. -/
def stripChars (s : List Char) : List Char :=
  ((s.dropWhile isPySpace).reverse.dropWhile isPySpace).reverse

/-- ASCII `str.lower()`. -/
def lowerStr (s : List Char) : List Char := s.map Char.toLower

/-- Embedding of `is_pdf`: the filename ends in `.pdf` (case-insensitive) or
the declared content type is one of the PDF MIME types. -/
def is_pdf (filename : List Char) (content_type : Option (List Char)) : Bool :=
  if !filename.isEmpty && List.isSuffixOf ".pdf".data (lowerStr filename) then true
  else
    match content_type with
    | some ct =>
      !ct.isEmpty &&
        (lowerStr ct == "application/pdf".data || lowerStr ct == "application/x-pdf".data)
    | none => false

/-- Embedding of `extract_text_with_pdfplumber`, over the per-page text-layer
results of a successful pdfplumber call: keep the non-empty pages, join with
newline separators, strip surrounding whitespace. -/
def extract_text_with_pdfplumber (pages : List (List Char)) : List Char :=
  stripChars (List.intercalate ['\n'] (pages.filter (fun p => !p.isEmpty)))

/-- Embedding of `extract_text_with_pdf_ocr`, over the per-page OCR results of
a successful rasterize-and-recognize pass: keep the non-empty pages, join with
newline separators, strip surrounding whitespace. -/
def extract_text_with_pdf_ocr (pages : List (List Char)) : List Char :=
  stripChars (List.intercalate ['\n'] (pages.filter (fun p => !p.isEmpty)))

/-- Embedding of `extract_text_from_image`: strip of the raw pytesseract
output. -/
def extract_text_from_image (raw : List Char) : List Char := stripChars raw

/-- The PDF branch of the `extract_imei` handler: pdfplumber first (a raised
exception, `textLayer = none`, is swallowed as empty text but leaves the
method label unset), OCR fallback when the text is empty or shorter than 10
characters (a raised fallback, `ocrPages = none`, is swallowed), and the label
`unknown_pdf` when no stage set a method label.  Returns the pair of
`extracted_text` and `method_used`. -/
def pdf_extract (textLayer : Option (List (List Char)))
    (ocrPages : Option (List (List Char))) : List Char × String :=
  let s0 : List Char × String :=
    match textLayer with
    | some pages => (extract_text_with_pdfplumber pages, "pdfplumber")
    | none => ([], "")
  let s1 : List Char × String :=
    if s0.1.isEmpty || s0.1.length < 10 then
      match ocrPages with
      | some pages =>
        if !(extract_text_with_pdf_ocr pages).isEmpty then
          (extract_text_with_pdf_ocr pages, "pdf_ocr")
        else s0
      | none => s0
    else s0
  (s1.1, if s1.2 = "" then "unknown_pdf" else s1.2)

/-- The response record of the `/extract-imei/` endpoint (`ExtractResponse`
without the pass-through filename field, which is upload plumbing). -/
structure ExtractResponse where
  method_used : String
  imeis : List (List Char)
  num_chars_extracted : Nat
  num_imeis_found : Nat
deriving DecidableEq

/-- Outcome of one request: a 200 response record, or an `HTTPException` with
a status code and a detail message. -/
inductive ApiResult where
  | ok (response : ExtractResponse)
  | httpError (status : Nat) (detail : String)
deriving DecidableEq

/-- Embedding of the `/extract-imei/` handler: choose the extraction strategy
by document kind, then package the scan result.  The outcomes of the external
calls are passed in: `textLayer` and `ocrPages` as in `pdf_extract`, and
`imageOcr` the raw pytesseract output on the image path (`none` meaning the
OCR call raised, which the handler turns into a 400 error). -/
def extract_imei (filename : List Char) (content_type : Option (List Char))
    (textLayer : Option (List (List Char))) (ocrPages : Option (List (List Char)))
    (imageOcr : Option (List Char)) : ApiResult :=
  let stage : Option (List Char × String) :=
    if is_pdf filename content_type then some (pdf_extract textLayer ocrPages)
    else
      match imageOcr with
      | some raw => some (extract_text_from_image raw, "image_ocr")
      | none => none
  match stage with
  | none => ApiResult.httpError 400 "Failed to process image file for OCR"
  | some st =>
    ApiResult.ok
      { method_used := st.2,
        imeis := extract_imeis_from_text st.1,
        num_chars_extracted := st.1.length,
        num_imeis_found := (extract_imeis_from_text st.1).length }

/-- Reference Luhn sum, following the spec: walk the digits from the rightmost
one, taking the rightmost as-is and doubling every second digit counting from
the right.  The input list is rightmost-first. -/
def luhnSumFromRight : List Nat → Nat
  | [] => 0
  | [d] => d
  | d :: d2 :: rest => d + double9 d2 + luhnSumFromRight rest

/-- Reference Luhn validator, following the spec's words for §4.1: same
non-digit rejection, but the transformed sum is computed from the rightmost
digit leftwards. -/
def luhn_reference_is_valid (number_str : List Char) : Bool :=
  if !str_isdigit number_str then false
  else luhnSumFromRight ((number_str.map digitVal).reverse) % 10 == 0

/-- First-occurrence deduplication against an initial seen set. -/
def dedupFirstAux : List (List Char) → List (List Char) → List (List Char)
  | [], _ => []
  | c :: cs, seen =>
    if c ∈ seen then dedupFirstAux cs seen
    else c :: dedupFirstAux cs (c :: seen)

/-- The character preceding the position right after `u`, given the character
preceding `u` itself. -/
def lastPrev : List Char → Option Char → Option Char
  | [], prev => prev
  | c :: t, _ => lastPrev t (some c)

/-! ### Lemmas about the Luhn validator -/

theorem luhnSumAux_append_pair (parity b a : Nat) :
    ∀ (t : List Nat) (i : Nat),
      luhnSumAux parity i (t ++ [b, a]) =
        luhnSumAux parity i t +
          (if (i + t.length) % 2 = parity then double9 b else b) +
          (if (i + t.length + 1) % 2 = parity then double9 a else a) := by
  intro t
  induction t with
  | nil =>
    intro i
    simp [luhnSumAux, Nat.add_assoc]
  | cons d t ih =>
    intro i
    have hexp : luhnSumAux parity i (d :: t) =
        (if i % 2 = parity then double9 d else d) + luhnSumAux parity (i + 1) t := rfl
    have hexp2 : luhnSumAux parity i ((d :: t) ++ [b, a]) =
        (if i % 2 = parity then double9 d else d) + luhnSumAux parity (i + 1) (t ++ [b, a]) := rfl
    rw [hexp2, ih (i + 1), hexp]
    have h1 : i + 1 + t.length = i + (d :: t).length := by
      simp only [List.length_cons]
      omega
    rw [h1]
    ring

theorem luhnSumAux_reverse :
    ∀ l : List Nat, luhnSumAux (l.length % 2) 0 l.reverse = luhnSumFromRight l
  | [] => rfl
  | [d] => by simp [luhnSumAux, luhnSumFromRight]
  | d1 :: d2 :: rest => by
    have ih := luhnSumAux_reverse rest
    have hrev : (d1 :: d2 :: rest).reverse = rest.reverse ++ [d2, d1] := by
      simp
    have hlen : (d1 :: d2 :: rest).length % 2 = rest.length % 2 := by
      simp only [List.length_cons]
      omega
    rw [hrev, hlen, luhnSumAux_append_pair]
    have h1 : (0 + rest.reverse.length) % 2 = rest.length % 2 := by
      simp
    have h2 : ¬ ((0 + rest.reverse.length + 1) % 2 = rest.length % 2) := by
      simp only [List.length_reverse, Nat.zero_add]
      omega
    rw [if_pos h1, if_neg h2, ih]
    simp only [luhnSumFromRight]
    omega

/-- C3: the validator's parity-based indexing, doubling the digit at left
index `i` exactly when `i % 2` equals `length % 2`, agrees with the reference
Luhn rule that doubles every second digit counting from the rightmost digit,
for inputs of either parity of length (and trivially on rejected non-digit
strings, where both return false). -/
theorem luhn_parity_indexing_matches_rightward :
    ∀ number_str : List Char,
      luhn_checksum_is_valid number_str = luhn_reference_is_valid number_str := by
  intro s
  have key := luhnSumAux_reverse ((s.map digitVal).reverse)
  rw [List.reverse_reverse, List.length_reverse] at key
  unfold luhn_checksum_is_valid luhn_reference_is_valid
  rw [key]

theorem luhnSumAux_replicate_zero (parity : Nat) :
    ∀ (n i : Nat), luhnSumAux parity i (List.replicate n 0) = 0
  | 0, _ => rfl
  | n + 1, i => by
    simp [List.replicate, luhnSumAux, luhnSumAux_replicate_zero parity n (i + 1), double9]

/-- C8: every all-zero digit string of positive length passes the checksum:
the transformed digit sum is 0, and the function imposes no length-15
constraint of its own. -/
theorem luhn_all_zero_valid (n : Nat) (h : 0 < n) :
    luhn_checksum_is_valid (List.replicate n '0') = true := by
  have hne : List.replicate n '0' ≠ [] := by
    intro hnil
    have := congrArg List.length hnil
    simp at this
    omega
  have hd : str_isdigit (List.replicate n '0') = true := by
    unfold str_isdigit
    have h1 : (List.replicate n '0').isEmpty = false := by
      cases hE : (List.replicate n '0').isEmpty with
      | false => rfl
      | true => exact absurd (List.isEmpty_iff.mp hE) hne
    have h2 : (List.replicate n '0').all Char.isDigit = true := by
      rw [List.all_eq_true]
      intro c hc
      have : c = '0' := (List.eq_of_mem_replicate hc)
      subst this
      decide
    rw [h1, h2]
    rfl
  have hmap : (List.replicate n '0').map digitVal = List.replicate n 0 := by
    rw [List.map_replicate]
    rfl
  unfold luhn_checksum_is_valid
  rw [hd, hmap, luhnSumAux_replicate_zero]
  rfl

/-- Witness for C8 at `n = 3`. -/
theorem luhn_all_zero_valid_witness :
    0 < 3 ∧ luhn_checksum_is_valid (List.replicate 3 '0') = true :=
  ⟨by decide, luhn_all_zero_valid 3 (by decide)⟩

/-- C2 counterexample: sixteen zeros are all digits of length 16 ≠ 15, yet the
validator returns true — it performs no length check of its own. -/
theorem luhn_no_length_check_counterexample :
    (List.replicate 16 '0').length ≠ 15 ∧
      (List.replicate 16 '0').all Char.isDigit = true ∧
      luhn_checksum_is_valid (List.replicate 16 '0') = true := by
  decide

/-- C2 amended: a string containing a non-digit character is rejected
immediately; a pure length mismatch is not rejected by the validator itself
(the expected length 15 is enforced by the caller's 15-digit regex). -/
theorem luhn_rejects_non_digit (s : List Char) (c : Char) (hc : c ∈ s)
    (hd : c.isDigit = false) : luhn_checksum_is_valid s = false := by
  have hall : s.all Char.isDigit = false := by
    cases hA : s.all Char.isDigit with
    | false => rfl
    | true =>
      have := List.all_eq_true.mp hA c hc
      rw [hd] at this
      exact absurd this (by simp)
  have hsd : str_isdigit s = false := by
    unfold str_isdigit
    rw [hall, Bool.and_false]
  unfold luhn_checksum_is_valid
  rw [hsd]
  rfl

/-- Witness for the amended C2 on the input `1a`. -/
theorem luhn_rejects_non_digit_witness :
    'a' ∈ "1a".data ∧ Char.isDigit 'a' = false ∧
      luhn_checksum_is_valid "1a".data = false :=
  ⟨by decide, by decide, luhn_rejects_non_digit "1a".data 'a' (by decide) (by decide)⟩

/-- C9: the validator is a total Boolean function on all strings of the
modelled alphabet and returns false on the empty string, which is outside the
spec's declared non-empty domain. -/
theorem luhn_total_and_false_on_empty :
    luhn_checksum_is_valid [] = false ∧
      ∀ s : List Char,
        luhn_checksum_is_valid s = true ∨ luhn_checksum_is_valid s = false := by
  refine ⟨by decide, fun s => ?_⟩
  cases h : luhn_checksum_is_valid s
  · exact Or.inr rfl
  · exact Or.inl rfl

/-! ### The strategy selector and the orchestrator -/

/-- Text yielded by the PDF OCR fallback stage: empty when the call raised. -/
def ocrFallbackText (ocrPages : Option (List (List Char))) : List Char :=
  match ocrPages with
  | some pages => extract_text_with_pdf_ocr pages
  | none => []

/-- C1 counterexample: a text-layer extraction that succeeds with the
3-character text `abc` followed by a failing OCR call is labelled
`pdfplumber`, not `unknown_pdf`, while the raw text keeps the short result. -/
theorem short_text_layer_label_counterexample :
    extract_text_with_pdfplumber ["abc".data] = "abc".data ∧
      "abc".data ≠ [] ∧
      ("abc".data).length < 10 ∧
      pdf_extract (some ["abc".data]) none = ("abc".data, "pdfplumber") ∧
      (pdf_extract (some ["abc".data]) none).2 ≠ "unknown_pdf" := by
  decide

/-- C1 amended: the method label is `unknown_pdf` exactly when the text-layer
call raised (not merely returned empty or short text) and the OCR fallback
yielded no non-empty text; a successful text-layer call always leaves the
label `pdfplumber` unless the OCR fallback replaces it. -/
theorem unknown_pdf_label_iff (textLayer : Option (List (List Char)))
    (ocrPages : Option (List (List Char))) :
    (pdf_extract textLayer ocrPages).2 = "unknown_pdf" ↔
      textLayer = none ∧ ocrFallbackText ocrPages = [] := by
  have hA : ¬ (("pdfplumber" : String) = "unknown_pdf") := by decide
  have hB : ¬ (("pdf_ocr" : String) = "unknown_pdf") := by decide
  cases textLayer with
  | none =>
    cases ocrPages with
    | none => simp [pdf_extract, ocrFallbackText]
    | some pages =>
      simp only [pdf_extract, ocrFallbackText]
      split_ifs <;> simp_all
  | some pages =>
    cases ocrPages with
    | none =>
      simp only [pdf_extract, ocrFallbackText]
      split_ifs <;> simp_all
    | some ocr =>
      simp only [pdf_extract, ocrFallbackText]
      split_ifs <;> simp_all

/-- C5: text layer yields the empty string, PDF OCR yields a text containing a
known-valid IMEI: the pipeline answers with method `pdf_ocr`, the OCR text's
character count, and exactly that identifier. -/
theorem pdf_ocr_fallback_scenario :
    extract_imei "doc.pdf".data none (some [])
        (some ["some text with 490154203237518".data]) none =
      ApiResult.ok
        { method_used := "pdf_ocr",
          imeis := ["490154203237518".data],
          num_chars_extracted := ("some text with 490154203237518".data).length,
          num_imeis_found := 1 } := by
  decide

/-- C6: on a non-PDF document whose OCR call fails, the handler answers with
the 400 bad-input error and produces no response record. -/
theorem image_ocr_failure_is_bad_request (filename : List Char)
    (content_type : Option (List Char)) (textLayer ocrPages : Option (List (List Char)))
    (h : is_pdf filename content_type = false) :
    extract_imei filename content_type textLayer ocrPages none =
      ApiResult.httpError 400 "Failed to process image file for OCR" := by
  simp [extract_imei, h]

/-- Witness for C6 on a `.jpg` upload. -/
theorem image_ocr_failure_is_bad_request_witness :
    is_pdf "photo.jpg".data none = false ∧
      extract_imei "photo.jpg".data none none none none =
        ApiResult.httpError 400 "Failed to process image file for OCR" :=
  ⟨by decide, image_ocr_failure_is_bad_request "photo.jpg".data none none none (by decide)⟩

/-- C10: on a non-PDF document whose OCR call succeeds but yields text that is
empty after trimming, the handler answers with a success record labelled
`image_ocr`, zero characters and no identifiers — not with the bad-input
error. -/
theorem image_ocr_empty_text_is_success (filename : List Char)
    (content_type : Option (List Char)) (textLayer ocrPages : Option (List (List Char)))
    (raw : List Char) (hk : is_pdf filename content_type = false)
    (he : stripChars raw = []) :
    extract_imei filename content_type textLayer ocrPages (some raw) =
      ApiResult.ok
        { method_used := "image_ocr", imeis := [], num_chars_extracted := 0,
          num_imeis_found := 0 } := by
  simp [extract_imei, hk, extract_text_from_image, he, extract_imeis_from_text]

/-- Witness for C10 on a `.png` upload whose OCR output is one space. -/
theorem image_ocr_empty_text_is_success_witness :
    is_pdf "scan.png".data none = false ∧ stripChars " ".data = [] ∧
      extract_imei "scan.png".data none none none (some " ".data) =
        ApiResult.ok
          { method_used := "image_ocr", imeis := [], num_chars_extracted := 0,
            num_imeis_found := 0 } :=
  ⟨by decide, by decide,
    image_ocr_empty_text_is_success "scan.png".data none none none " ".data
      (by decide) (by decide)⟩

/-! ### Lemmas about the candidate scanner -/

theorem lastPrev_cons (c : Char) (t : List Char) (prev : Option Char) :
    lastPrev (c :: t) prev = lastPrev t (some c) := rfl

theorem imeiMatchAt_of_non_digit_head (prev : Option Char) (c : Char)
    (cs : List Char) (hc : c.isDigit = false) :
    imeiMatchAt prev (c :: cs) = false := by
  unfold imeiMatchAt
  rw [show (15 : Nat) = 14 + 1 from rfl, List.take_succ_cons, List.all_cons, hc]
  simp

theorem scan_skip_non_digits (u : List Char) :
    ∀ (rest : List Char) (prev : Option Char), (∀ c ∈ u, c.isDigit = false) →
      scanIMEIs 0 prev (u ++ rest) = scanIMEIs 0 (lastPrev u prev) rest := by
  induction u with
  | nil => intro rest prev _; rfl
  | cons c t ih =>
    intro rest prev h
    have hc : c.isDigit = false := h c (List.mem_cons_self c t)
    have hmatch : imeiMatchAt prev (c :: (t ++ rest)) = false :=
      imeiMatchAt_of_non_digit_head prev c (t ++ rest) hc
    rw [List.cons_append]
    show (if imeiMatchAt prev (c :: (t ++ rest)) = true then
        (c :: (t ++ rest)).take 15 :: scanIMEIs 14 (some c) (t ++ rest)
      else scanIMEIs 0 (some c) (t ++ rest)) = _
    rw [hmatch, if_neg (by simp), lastPrev_cons,
      ih rest (some c) (fun x hx => h x (List.mem_cons_of_mem c hx))]

theorem digit_isWordChar (c : Char) (h : c.isDigit = true) : isWordChar c = true := by
  simp [isWordChar, Char.isAlphanum, h]

theorem scan_skip_digits_after_word (d : List Char) :
    ∀ (rest : List Char) (c : Char), isWordChar c = true → d.all Char.isDigit = true →
      scanIMEIs 0 (some c) (d ++ rest) = scanIMEIs 0 (lastPrev d (some c)) rest := by
  induction d with
  | nil => intro rest c _ _; rfl
  | cons d1 t ih =>
    intro rest c hw hd
    have hmatch : imeiMatchAt (some c) (d1 :: (t ++ rest)) = false := by
      simp [imeiMatchAt, boundaryBeforeOk, hw]
    rw [List.cons_append]
    show (if imeiMatchAt (some c) (d1 :: (t ++ rest)) = true then
        (d1 :: (t ++ rest)).take 15 :: scanIMEIs 14 (some d1) (t ++ rest)
      else scanIMEIs 0 (some d1) (t ++ rest)) = _
    have hd1 : d1.isDigit = true := by
      rw [List.all_cons, Bool.and_eq_true] at hd
      exact hd.1
    have ht : t.all Char.isDigit = true := by
      rw [List.all_cons, Bool.and_eq_true] at hd
      exact hd.2
    rw [hmatch, if_neg (by simp), lastPrev_cons,
      ih rest d1 (digit_isWordChar d1 hd1) ht]

theorem scan_skip_long_digit_run (d rest : List Char) (prev : Option Char)
    (hd : d.all Char.isDigit = true) (hlen : 15 < d.length) :
    scanIMEIs 0 prev (d ++ rest) = scanIMEIs 0 (lastPrev d prev) rest := by
  cases d with
  | nil => simp at hlen
  | cons d1 t =>
    have h14 : 14 < t.length := by
      simp only [List.length_cons] at hlen
      omega
    have hd1 : d1.isDigit = true := by
      rw [List.all_cons, Bool.and_eq_true] at hd
      exact hd.1
    have ht : t.all Char.isDigit = true := by
      rw [List.all_cons, Bool.and_eq_true] at hd
      exact hd.2
    have hdig : (t[14]).isDigit = true :=
      List.all_eq_true.mp ht _ (List.getElem_mem h14)
    have hword : isWordChar t[14] = true := digit_isWordChar _ hdig
    have hdrop : (d1 :: (t ++ rest)).drop 15 = t[14] :: (t.drop 15 ++ rest) := by
      rw [show (15 : Nat) = 14 + 1 from rfl, List.drop_succ_cons,
        List.drop_append_of_le_length (Nat.le_of_lt h14),
        List.drop_eq_getElem_cons h14, List.cons_append]
    have hmatch : imeiMatchAt prev (d1 :: (t ++ rest)) = false := by
      unfold imeiMatchAt
      rw [hdrop]
      have hafter : boundaryAfterOk (t[14] :: (t.drop 15 ++ rest)) = false := by
        simp [boundaryAfterOk, hword]
      rw [hafter]
      simp
    rw [List.cons_append]
    show (if imeiMatchAt prev (d1 :: (t ++ rest)) = true then
        (d1 :: (t ++ rest)).take 15 :: scanIMEIs 14 (some d1) (t ++ rest)
      else scanIMEIs 0 (some d1) (t ++ rest)) = _
    rw [hmatch, if_neg (by simp), lastPrev_cons,
      scan_skip_digits_after_word t rest d1 (digit_isWordChar d1 hd1) ht]

theorem scan_no_digits_empty (v : List Char) (prev : Option Char)
    (hv : ∀ c ∈ v, c.isDigit = false) : scanIMEIs 0 prev v = [] := by
  have h := scan_skip_non_digits v [] prev hv
  rw [List.append_nil] at h
  rw [h]
  rfl

/-- C7: a run of more than 15 consecutive digits yields no matched 15-digit
substring from inside it: for any text whose digits form a single run longer
than 15 characters, with arbitrary digit-free context on both sides, the
candidate scanner finds no match at all and the extraction result is empty. -/
theorem long_digit_run_never_matches (u d v : List Char)
    (hu : ∀ c ∈ u, c.isDigit = false) (hv : ∀ c ∈ v, c.isDigit = false)
    (hd : d.all Char.isDigit = true) (hlen : 15 < d.length) :
    findallIMEIs (u ++ d ++ v) = [] ∧ extract_imeis_from_text (u ++ d ++ v) = [] := by
  have hscan : findallIMEIs (u ++ d ++ v) = [] := by
    unfold findallIMEIs
    rw [List.append_assoc, scan_skip_non_digits u (d ++ v) none hu,
      scan_skip_long_digit_run d v (lastPrev u none) hd hlen,
      scan_no_digits_empty v _ hv]
  refine ⟨hscan, ?_⟩
  unfold extract_imeis_from_text
  split
  · rfl
  · rw [hscan]
    rfl

/-- Witness for C7: a 17-digit run flanked by letters and a space-separated
word matches nothing. -/
theorem long_digit_run_never_matches_witness :
    (∀ c ∈ "abc".data, c.isDigit = false) ∧ (∀ c ∈ " xyz".data, c.isDigit = false) ∧
      ("12345678901234567".data).all Char.isDigit = true ∧
      15 < ("12345678901234567".data).length ∧
      findallIMEIs ("abc".data ++ "12345678901234567".data ++ " xyz".data) = [] ∧
      extract_imeis_from_text ("abc".data ++ "12345678901234567".data ++ " xyz".data) = [] := by
  have h := long_digit_run_never_matches "abc".data "12345678901234567".data " xyz".data
    (by decide) (by decide) (by decide) (by decide)
  exact ⟨by decide, by decide, by decide, by decide, h.1, h.2⟩

/-! ### Deduplication and ordering of the accepted candidates -/

theorem filterValid_nodup_and_fresh (cands : List (List Char)) :
    ∀ seen : List (List Char),
      (filterValid cands seen).Nodup ∧ ∀ x ∈ filterValid cands seen, x ∉ seen := by
  induction cands with
  | nil =>
    intro seen
    simp [filterValid]
  | cons c cs ih =>
    intro seen
    by_cases h1 : c ∈ seen
    · simpa [filterValid, h1] using ih seen
    · by_cases h2 : luhn_checksum_is_valid c = true
      · have ihc := ih (c :: seen)
        simp only [filterValid, if_neg h1, if_pos h2]
        constructor
        · refine List.nodup_cons.mpr ⟨?_, ihc.1⟩
          intro hmem
          exact (ihc.2 c hmem) (List.mem_cons_self c seen)
        · intro x hx
          rcases List.mem_cons.mp hx with hcx | hx2
          · rw [hcx]
            exact h1
          · intro hxseen
            exact (ihc.2 x hx2) (List.mem_cons_of_mem c hxseen)
      · simp only [filterValid, if_neg h1, if_neg h2]
        exact ih seen

theorem filterValid_eq_dedupFirst (cands : List (List Char)) :
    ∀ seen : List (List Char),
      filterValid cands seen =
        dedupFirstAux (cands.filter luhn_checksum_is_valid) seen := by
  induction cands with
  | nil =>
    intro seen
    simp [filterValid, dedupFirstAux]
  | cons c cs ih =>
    intro seen
    by_cases h2 : luhn_checksum_is_valid c = true
    · rw [List.filter_cons_of_pos h2]
      by_cases h1 : c ∈ seen
      · simp only [filterValid, dedupFirstAux, if_pos h1]
        exact ih seen
      · simp only [filterValid, dedupFirstAux, if_neg h1, if_pos h2]
        rw [ih (c :: seen)]
    · rw [List.filter_cons_of_neg (by simpa using h2)]
      by_cases h1 : c ∈ seen
      · simp only [filterValid, if_pos h1]
        exact ih seen
      · simp only [filterValid, if_neg h1, if_neg h2]
        exact ih seen

/-- C4: the extraction result never contains a duplicate string, and it is
exactly the first-occurrence deduplication of the Luhn-valid candidates in
the order the scanner finds them in the text; in particular, a text carrying
one valid identifier twice around a different valid one yields each exactly
once, in first-occurrence order. -/
theorem scanner_dedup_and_first_occurrence_order :
    (∀ text : List Char, (extract_imeis_from_text text).Nodup) ∧
      (∀ text : List Char,
        extract_imeis_from_text text =
          dedupFirstAux ((findallIMEIs text).filter luhn_checksum_is_valid) []) ∧
      extract_imeis_from_text
          "490154203237518 356938035643809 490154203237518".data =
        ["490154203237518".data, "356938035643809".data] := by
  refine ⟨fun text => ?_, fun text => ?_, by decide⟩
  · unfold extract_imeis_from_text
    split
    · exact List.nodup_nil
    · exact (filterValid_nodup_and_fresh (findallIMEIs text) []).1
  · unfold extract_imeis_from_text
    split
    · rename_i hE
      have htext : text = [] := List.isEmpty_iff.mp hE
      rw [htext]
      rfl
    · exact filterValid_eq_dedupFirst (findallIMEIs text) []
